import Mathlib

/-!
Verification of the ingestion-and-retrieval core of the `cutomer_chatbot_rag`
repository against its natural-language specification.

The Python source is shallowly embedded:

* review text and fragment contents are `List Char` (Python `str`);
* embedding vectors are `List Int` (the float values are irrelevant to every
  property checked here, which concern only counts, order and identity);
* the file system and external providers are passed in explicitly
  (the pre-existing cache file as an `Option`, the embedding provider and the
  relevance judge as function parameters);
* fallible steps return `Except String`.

Each definition is annotated with the source location it embeds.
-/

/-- ASCII model of Python `str.strip()`: drop whitespace from both ends. -/
def trim (l : List Char) : List Char :=
  ((l.dropWhile Char.isWhitespace).reverse.dropWhile Char.isWhitespace).reverse

/-- Model of Python `str.split(sep)` for a one-character separator `sep`:
splits into the (possibly empty) pieces between occurrences of `sep`. -/
def splitOnChar (sep : Char) : List Char → List (List Char)
  | [] => [[]]
  | c :: cs =>
    match splitOnChar sep cs with
    | [] => [[]]
    | h :: t => if c = sep then [] :: h :: t else (c :: h) :: t

/-- Python substring test `needle in hay`, via Mathlib's decidable
`l₁ <:+: l₂` relation. -/
def strContains (hay needle : List Char) : Bool :=
  decide (needle <:+: hay)

/-- The metadata dict attached to every `Document` in `transform_data`
(`src/data_ingestion/ingestion_pipeline.py`, lines 86–92).  All values are
modelled as strings; only `category` is ever inspected downstream. -/
structure Metadata where
  product_name : String
  product_rating : String
  product_price : String
  product_url : String
  category : String
deriving DecidableEq, Repr

/-- `langchain_core.documents.Document`: a content string plus metadata. -/
structure Document where
  page_content : List Char
  metadata : Metadata
deriving DecidableEq, Repr

/-- A default metadata value, used for concrete test inputs. -/
def mdDefault : Metadata :=
  { product_name := ("p"), product_rating := ("4"), product_price := ("100"),
    product_url := (""), category := ("mobiles") }

/-- Metadata carrying a given category, for concrete test inputs. -/
def mdWithCategory (c : String) : Metadata :=
  { mdDefault with category := c }

namespace Retrieval

/-- `detect_category_from_query` from `src/retriever/retrieval.py`,
lines 74–85: lower-case the query, then test keyword substrings in a fixed
order of `if`/`elif` branches. -/
def detect_category_from_query (query : List Char) : String :=
  let q := query.map Char.toLower
  if strContains q (("headphone").toList) || strContains q (("earphone").toList)
      || strContains q (("headset").toList) then ("headphones")
  else if strContains q (("mobile").toList) || strContains q (("smartphone").toList)
      || strContains q (("phone").toList) then ("mobiles")
  else if strContains q (("watch").toList) || strContains q (("smartwatch").toList) then
    ("smart_watches")
  else if strContains q (("tv").toList) || strContains q (("television").toList) then
    ("tv")
  else ("unknown")

end Retrieval

namespace Ingestion

/-- `detect_category_from_query` from
`src/data_ingestion/ingestion_pipeline.py`, lines 185–196.  Identical to the
retriever's copy except that the smart-watch branch tests only `"watch"`. -/
def detect_category_from_query (query : List Char) : String :=
  let q := query.map Char.toLower
  if strContains q (("headphone").toList) || strContains q (("earphone").toList)
      || strContains q (("headset").toList) then ("headphones")
  else if strContains q (("mobile").toList) || strContains q (("smartphone").toList)
      || strContains q (("phone").toList) then ("mobiles")
  else if strContains q (("watch").toList) then ("smart_watches")
  else if strContains q (("tv").toList) || strContains q (("television").toList) then
    ("tv")
  else ("unknown")

end Ingestion

/-- The closed category/keyword enumeration as the spec states it (§6):
each category with its keyword set, in the order the code tests them. -/
def categoryKeywords : List (String × List String) :=
  [(("headphones"), [("headphone"), ("earphone"), ("headset")]),
   (("mobiles"), [("mobile"), ("smartphone"), ("phone")]),
   (("smart_watches"), [("watch"), ("smartwatch")]),
   (("tv"), [("tv"), ("television")])]

/-- Classifier written from the spec's words (§4.6/§6) for comparison with the
code: first category whose keyword set matches the lower-cased query wins;
`"unknown"` if none matches. -/
def detectSpec (query : List Char) : String :=
  let q := query.map Char.toLower
  match categoryKeywords.find? (fun p => p.2.any (fun kw => strContains q kw.toList)) with
  | some p => p.1
  | none => ("unknown")

/-- The query-time category-filter-with-fallback flow from
`src/retriever/retrieval.py`, lines 97–105: filter to the detected category
unless it is `"unknown"`; if the filtered set is empty, fall back to the
unfiltered results. -/
def categoryFilterFlow (detectedCategory : String) (results : List Document) :
    List Document :=
  let filtered :=
    if detectedCategory ≠ ("unknown") then
      results.filter (fun d => d.metadata.category == detectedCategory)
    else results
  if filtered.isEmpty then results else filtered

/-! ## ChunkSplitter

`transform_data` (`src/data_ingestion/ingestion_pipeline.py`, lines 73–108)
configures `RecursiveCharacterTextSplitter(chunk_size=512, chunk_overlap=50,
length_function=len, separators=[";"])` and applies it to every review piece
longer than 512 characters.  The splitter itself is langchain library code; it
is embedded below specialised to this configuration (single separator `';'`,
`keep_separator=False`, so merged chunks are re-joined with `";"`). -/

/-- `CharacterTextSplitter._join_docs`: join accumulated splits with the
separator, strip, and drop the chunk when the result is empty. -/
def joinDocs (docs : List (List Char)) : Option (List Char) :=
  let text := trim (List.intercalate [';'] docs)
  if text = [] then none else some text

/-- The overlap-eviction `while` loop inside `_merge_splits`: pop leading
splits from the running window while the kept total exceeds the 50-character
overlap, or while the next split would still not fit in 512 characters.
`total` is the window's joined length, `lenD` the incoming split's length.
(When the window is empty the loop condition is false — `total` is `0` there —
so returning at `[]` agrees with the source.) -/
def popOverlap : List (List Char) → Int → Int → Int × List (List Char)
  | [], total, _ => (total, [])
  | c :: cs, total, lenD =>
    if total > 50 ∨ (total + lenD + 1 > 512 ∧ total > 0) then
      popOverlap cs (total - ((c.length : Int) + (if cs ≠ [] then 1 else 0))) lenD
    else (total, c :: cs)

/-- The main loop of `CharacterTextSplitter._merge_splits` (separator `";"`,
`chunk_size=512`, `chunk_overlap=50`): greedily pack small splits into
windows of at most 512 joined characters, emitting each window joined with
`";"` and retaining up to 50 characters of overlap. -/
def mergeLoop : List (List Char) → List (List Char) → List (List Char) → Int →
    List (List Char)
  | [], docs, curr, _ =>
    (match joinDocs curr with
     | some doc => docs ++ [doc]
     | none => docs)
  | d :: rest, docs, curr, total =>
    let lenD : Int := d.length
    let next :=
      if total + lenD + (if curr ≠ [] then 1 else 0) > 512 then
        if curr ≠ [] then
          let docs' :=
            (match joinDocs curr with
             | some doc => docs ++ [doc]
             | none => docs)
          let tc := popOverlap curr total lenD
          (docs', tc.2, tc.1)
        else (docs, curr, total)
      else (docs, curr, total)
    let curr' := next.2.1 ++ [d]
    let total' := next.2.2 + lenD + (if curr'.length > 1 then 1 else 0)
    mergeLoop rest next.1 curr' total'

/-- `CharacterTextSplitter._merge_splits` specialised to this configuration. -/
def mergeSplits (splits : List (List Char)) : List (List Char) :=
  mergeLoop splits [] [] 0

/-- Flush the accumulated good splits through `_merge_splits`
(the `if _good_splits:` guard in `_split_text`). -/
def flushGood (good : List (List Char)) : List (List Char) :=
  if good = [] then [] else mergeSplits good

/-- The per-split loop of `RecursiveCharacterTextSplitter._split_text` with
the single separator `';'`: splits shorter than 512 are accumulated and
merged; a split of length `≥ 512` flushes the accumulator and is emitted
unchanged (there are no further separators to recurse on). -/
def processSplits : List (List Char) → List (List Char) → List (List Char)
  | [], good => flushGood good
  | s :: rest, good =>
    if s.length < 512 then processSplits rest (good ++ [s])
    else flushGood good ++ [s] ++ processSplits rest []

/-- `RecursiveCharacterTextSplitter.split_text` for
`separators=[";"], chunk_size=512, chunk_overlap=50`: split on `';'`
(dropping empty pieces, as `_split_text_with_regex` does), then merge/emit. -/
def splitText (text : List Char) : List (List Char) :=
  processSplits ((splitOnChar ';' text).filter (fun s => s ≠ [])) []

/-- The per-review body of `DataIngestion.transform_data`
(`src/data_ingestion/ingestion_pipeline.py`, lines 84–104) applied to one
row's `Reviews` string: split on `';'`, strip each piece, skip empty pieces;
run pieces longer than 512 characters through the splitter (stripping each
produced chunk), keep the others whole. -/
def transform_data_reviews (reviews : List Char) (metadata : Metadata) :
    List Document :=
  (splitOnChar ';' reviews).flatMap (fun piece =>
    let single_review := trim piece
    if single_review = [] then []
    else if single_review.length > 512 then
      (splitText single_review).map (fun chunk =>
        { page_content := trim chunk, metadata := metadata })
    else [{ page_content := single_review, metadata := metadata }])

/-! ## IngestionPipeline: `store_in_vector_db`

`DataIngestion.store_in_vector_db` (`src/data_ingestion/ingestion_pipeline.py`,
lines 115–157).  The FAISS index internals (`IndexIVFPQ`) and the langchain
`FAISS` store persistence are library code; they are modelled from the spec
where the claims need them (training precondition, search contract, save/load
as a matched pair).  The added vectors, the `InMemoryDocstore` dict and the
`index_to_docstore_id` dict are kept as insertion-ordered association lists. -/

/-- The in-memory `FAISS` vector store assembled at the end of
`store_in_vector_db`: the vectors added to the `IndexIVFPQ` in order, the
`InMemoryDocstore` dict `{str(i): doc}` and the `index_to_docstore_id` dict
`{i: str(i)}`, both in insertion order. -/
structure VStore where
  index : List (List Int)
  docstore : List (String × Document)
  index_to_docstore_id : List (Nat × String)
deriving DecidableEq, Repr

/-- Observable effects and outcome of one `store_in_vector_db` run:
how many times the embedding provider was invoked, whether
`cached_embeddings.npy` was (re)written, the cache file's contents after the
run, and the run's outcome. -/
structure RunResult where
  providerCalls : Nat
  wroteCache : Bool
  newCache : Option (List (List Int))
  outcome : Except String VStore
deriving Repr

/-- Error raised by `vectors_np.shape[1]` when the embedding matrix is empty. -/
def shapeErr : String := ("IndexError: tuple index out of range")

/-- Error raised by `np.array(vectors)` on rows of unequal length. -/
def raggedErr : String := ("ValueError: setting an array element with a sequence")

/-- Error raised by FAISS coarse-quantizer training when fewer training points
than `nlist = 40` clusters are supplied (spec §4.3 step 2: "Training requires
at least `nlist` vectors; if fewer are supplied, training is undefined and
must be reported as an error"). -/
def trainErr : String :=
  ("Number of training points should be at least as large as number of clusters")

/-- The index construction and population of `store_in_vector_db` lines
135–153, given the embedding matrix `rows`.  `dim = vectors_np.shape[1]`
needs a first row; a loaded `.npy` matrix always has rows of one length, so
the uniformity guard models that shape requirement.  Training is modelled
from the spec: it fails unless at least `nlist = 40` vectors are supplied;
afterwards all rows are added in order and the docstore dicts are built by
enumeration. -/
def buildAndSave (rows : List (List Int)) (documents : List Document) :
    Except String VStore :=
  match rows with
  | [] => Except.error shapeErr
  | v :: _ =>
    if rows.all (fun w => w.length == v.length) then
      if rows.length < 40 then Except.error trainErr
      else
        Except.ok
          { index := rows,
            docstore := documents.enum.map (fun p => (toString p.1, p.2)),
            index_to_docstore_id :=
              (List.range documents.length).map (fun i => (i, toString i)) }
    else Except.error raggedErr

/-- `DataIngestion.store_in_vector_db` (lines 115–157).  `embed` is the
embedding provider's `embed_documents` applied pointwise (order-preserving,
per the provider contract of spec §6); `cache` is the content of
`cached_embeddings.npy` if that file exists.  The source checks only
`os.path.exists(cache_file)`: an existing file is loaded verbatim and the
provider is never consulted; otherwise the provider is invoked once for the
whole batch and the fresh matrix is saved (before training, so the write
happens even when training subsequently fails). -/
def store_in_vector_db (embed : List Char → List Int) (documents : List Document)
    (cache : Option (List (List Int))) : RunResult :=
  let texts := documents.map (fun d => d.page_content)
  match cache with
  | some rows =>
    { providerCalls := 0, wroteCache := false, newCache := some rows,
      outcome := buildAndSave rows documents }
  | none =>
    let vectors := texts.map embed
    match vectors with
    | [] =>
      { providerCalls := 1, wroteCache := true, newCache := some [],
        outcome := buildAndSave [] documents }
    | v :: _ =>
      if vectors.all (fun w => w.length == v.length) then
        { providerCalls := 1, wroteCache := true, newCache := some vectors,
          outcome := buildAndSave vectors documents }
      else
        { providerCalls := 1, wroteCache := false, newCache := none,
          outcome := Except.error raggedErr }

/-- The embedding matrix a run works from: the pre-existing cache file if it
exists, else fresh embeddings of the documents' contents (lines 124–133). -/
def vectorsUsed (embed : List Char → List Int) (documents : List Document)
    (cache : Option (List (List Int))) : List (List Int) :=
  match cache with
  | some rows => rows
  | none => documents.map (fun d => embed d.page_content)

/-- The on-disk artifact written by `vstore.save_local`: `index.faiss`
(the serialized quantized index) plus `index.pkl` (docstore and position
mapping). -/
structure SavedArtifact where
  faissIndexFile : List (List Int)
  pklDocstore : List (String × Document)
  pklMapping : List (Nat × String)
deriving DecidableEq, Repr

/-- Modelled from the spec: `FAISS.save_local` (langchain library code, not in
the repository source) serializes the trained index and the docstore/mapping
pair losslessly — spec §6: "on-disk serialization of QuantizedIndex … plus a
parallel serialization of DocumentStore …, loaded as a matched pair". -/
def save_local (v : VStore) : SavedArtifact :=
  { faissIndexFile := v.index, pklDocstore := v.docstore,
    pklMapping := v.index_to_docstore_id }

/-- Modelled from the spec: `FAISS.load_local` (langchain library code, not in
the repository source) reconstructs the matched pair from the artifact. -/
def load_local (a : SavedArtifact) : VStore :=
  { index := a.faissIndexFile, docstore := a.pklDocstore,
    index_to_docstore_id := a.pklMapping }

/-! ## QuantizedIndex search (spec §4.3 query contract) -/

/-- Modelled from the spec: `QuantizedIndex.search(q, k)`
(FAISS `IndexIVFPQ.search`, library code, not in the repository source).
Spec §4.3: "`search(query_vector, k) -> ordered sequence of
(position, approximate_distance)`, ascending by distance, length `<= k` …
Ties in distance are broken by ascending position."  The approximate distance
computed from the compressed codes is abstracted as the parameter `dist`;
the result pairs each stored position with its distance, sorted by distance
then position, truncated to `k`. -/
def searchIndex (index : List (List Int)) (dist : List Int → List Int → Nat)
    (q : List Int) (k : Nat) : List (Nat × Nat) :=
  (((index.map (dist q)).enum).mergeSort
    (fun a b => decide (a.2 < b.2 ∨ (a.2 = b.2 ∧ a.1 ≤ b.1)))).take k

/-! ## Reranker: `rerank_documents` -/

/-- ASCII decimal digit value. -/
def digitChar? (c : Char) : Option Nat :=
  if c.isDigit then some (c.toNat - ('0').toNat) else none

/-- Digits after the first one in Python `int(str)`: a single `'_'` is
permitted between digits (`int("1_0") = 10`), but not doubled, leading or
trailing. -/
def parseUDigitsRest : List Char → Nat → Option Nat
  | [], acc => some acc
  | ('_') :: c :: cs, acc =>
    (digitChar? c).bind (fun d => parseUDigitsRest cs (acc * 10 + d))
  | ('_') :: [], _ => none
  | c :: cs, acc =>
    (digitChar? c).bind (fun d => parseUDigitsRest cs (acc * 10 + d))

/-- An unsigned digit string for Python `int(str)`: at least one digit,
underscores only between digits. -/
def parseUDigits : List Char → Option Nat
  | [] => none
  | c :: cs => (digitChar? c).bind (fun d => parseUDigitsRest cs d)

/-- ASCII model of Python `int(str)`: strip whitespace, optional sign, then a
digit string; `none` models the `ValueError` that the `except` clause in
`rerank_documents` turns into dropping the candidate. -/
def pyInt (s : List Char) : Option Int :=
  match trim s with
  | ('+') :: rest => (parseUDigits rest).map (fun n => (n : Int))
  | ('-') :: rest => (parseUDigits rest).map (fun n => -(n : Int))
  | rest => (parseUDigits rest).map (fun n => (n : Int))

/-- Python `list.sort(key=lambda x: x[1], reverse=True)` on `(doc, score)`
pairs: a stable sort that puts higher scores first and preserves input order
on equal scores.  CPython's sort is a stable merge sort; `List.mergeSort`
with `le a b := b.score ≤ a.score` has exactly that behaviour. -/
def pySortDesc (l : List (Document × Int)) : List (Document × Int) :=
  l.mergeSort (fun a b => decide (b.2 ≤ a.2))

/-- `Retriever.rerank_documents` (`src/retriever/retrieval.py`, lines 44–68):
for each candidate, obtain the judge's response, strip it and parse it with
`int(...)`; candidates whose response fails to parse are dropped (the
`except` clause), the rest are stably sorted by descending score and the
scores discarded.  `judge` abstracts `llm.invoke(prompt).content`. -/
def rerank_documents (docs : List Document) (judge : Document → List Char) :
    List Document :=
  let scored := docs.filterMap (fun doc =>
    let score_str := trim (judge doc)
    (pyInt score_str).map (fun score => (doc, score)))
  (pySortDesc scored).map (fun p => p.1)

/-! ## Concrete inputs for witnesses and counterexamples -/

/-- A constant one-dimensional embedding provider for concrete runs. -/
def embedZero : List Char → List Int := fun _ => [0]

/-- A one-document corpus for concrete runs. -/
def docHello : Document :=
  { page_content := ("hello").toList, metadata := mdDefault }

/-- A stale cache file of 41 rows, none of them `embedZero` of anything. -/
def rows41 : List (List Int) := List.replicate 41 [99]

/-- A stale cache file of 40 rows. -/
def rows40 : List (List Int) := List.replicate 40 [7]

/-- The vector store produced by ingesting `[docHello]` over the stale
41-row cache. -/
def vs41 : VStore :=
  { index := rows41, docstore := [(("0"), docHello)],
    index_to_docstore_id := [(0, ("0"))] }

/-- The vector store produced by ingesting `[docHello]` over the stale
40-row cache. -/
def vs40 : VStore :=
  { index := rows40, docstore := [(("0"), docHello)],
    index_to_docstore_id := [(0, ("0"))] }

/-- Candidate documents for the reranker example (spec §8). -/
def docA : Document := { page_content := ("A").toList, metadata := mdDefault }

/-- Second reranker candidate. -/
def docB : Document := { page_content := ("B").toList, metadata := mdDefault }

/-- Third reranker candidate. -/
def docC : Document := { page_content := ("C").toList, metadata := mdDefault }

/-- The judge of spec §8's reranker example: scores `A` at 3 and `B`, `C`
at 9. -/
def judge393 : Document → List Char := fun d =>
  if d.page_content = ("A").toList then ("3").toList else ("9").toList

/-- A judge whose response is the out-of-range integer `11`. -/
def judge11 : Document → List Char := fun _ => ("11").toList

/-! ## Helper lemmas about trimming and splitting -/

/-- Splitting on a character that does not occur leaves the list whole. -/
theorem splitOnChar_of_not_mem {sep : Char} {l : List Char} (h : sep ∉ l) :
    splitOnChar sep l = [l] := by
  induction l with
  | nil => rfl
  | cons c cs ih =>
    have hc : c ≠ sep := fun hcs => h (hcs ▸ List.mem_cons_self c cs)
    have hcs : sep ∉ cs := fun hm => h (List.mem_cons_of_mem c hm)
    simp [splitOnChar, ih hcs, hc]

/-- `dropWhile` is the identity when no element satisfies the predicate. -/
theorem dropWhile_eq_self_of {p : Char → Bool} {l : List Char}
    (h : ∀ c ∈ l, p c = false) : l.dropWhile p = l := by
  cases l with
  | nil => rfl
  | cons c cs =>
    rw [List.dropWhile_cons, h c (List.mem_cons_self c cs)]
    simp

/-- Stripping a string with no whitespace leaves it unchanged. -/
theorem trim_eq_self_of_no_ws {l : List Char}
    (h : ∀ c ∈ l, c.isWhitespace = false) : trim l = l := by
  unfold trim
  rw [dropWhile_eq_self_of h,
    dropWhile_eq_self_of (fun c hc => h c (List.mem_reverse.mp hc)),
    List.reverse_reverse]

/-- Core of claims about oversize review pieces: a stripped piece with no
`';'` and length above the 512-character limit passes through the splitter
untouched and yields exactly one fragment equal to the piece itself. -/
theorem transform_oversize (r : List Char) (md : Metadata) (h1 : (';') ∉ r)
    (h2 : trim r = r) (h3 : 512 < r.length) :
    transform_data_reviews r md = [{ page_content := r, metadata := md }] := by
  have hne : r ≠ [] := by
    intro he
    rw [he] at h3
    simp at h3
  have hsplit : splitText r = [r] := by
    unfold splitText
    rw [splitOnChar_of_not_mem h1]
    have : ¬ r.length < 512 := by omega
    simp [hne, processSplits, flushGood, this]
  unfold transform_data_reviews
  rw [splitOnChar_of_not_mem h1]
  have : ¬ r.length ≤ 512 := by omega
  simp [h2, hne, hsplit, Nat.lt_of_le_of_lt, this]

/-- The concrete 513-character review piece used against C3. -/
theorem replicate513_facts :
    (';') ∉ List.replicate 513 'a' ∧ trim (List.replicate 513 'a') = List.replicate 513 'a'
      ∧ 512 < (List.replicate 513 'a').length := by
  refine ⟨?_, ?_, ?_⟩
  · intro hm
    exact absurd (List.eq_of_mem_replicate hm) (by decide)
  · exact trim_eq_self_of_no_ws (fun c hc => by
      rw [List.eq_of_mem_replicate hc]; rfl)
  · rw [List.length_replicate]
    omega

/-- C3, counterexample: a single review piece of 513 non-whitespace,
non-`';'` characters produces a sub-chunk of length 513 > 512, refuting
"every sub-chunk produced by the splitting step has length <= 512". -/
theorem c3_chunk_length_cex :
    ∃ d ∈ transform_data_reviews (List.replicate 513 'a') mdDefault,
      512 < d.page_content.length := by
  obtain ⟨h1, h2, h3⟩ := replicate513_facts
  rw [transform_oversize (List.replicate 513 'a') mdDefault h1 h2 h3]
  exact ⟨_, List.mem_singleton_self _, h3⟩

/-- C3 (amended): the splitter's only separator is `';'`, and review pieces
are pre-split on `';'`, so every piece longer than the 512-character limit is
returned by the splitting step as a single sub-chunk equal to the (stripped)
piece itself — which therefore may exceed 512 characters; concatenating the
sub-chunks trivially reconstructs the piece, and no paragraph/sentence/word
boundary is ever sought. -/
theorem c3_split_amended (r : List Char) (md : Metadata) (h1 : (';') ∉ r)
    (h2 : trim r = r) (h3 : 512 < r.length) :
    transform_data_reviews r md = [{ page_content := r, metadata := md }] :=
  transform_oversize r md h1 h2 h3

/-- Witness for `c3_split_amended` at the 513-character piece. -/
theorem c3_split_amended_witness :
    ((';') ∉ List.replicate 513 'a' ∧ trim (List.replicate 513 'a') = List.replicate 513 'a'
        ∧ 512 < (List.replicate 513 'a').length)
      ∧ transform_data_reviews (List.replicate 513 'a') mdDefault
          = [{ page_content := List.replicate 513 'a', metadata := mdDefault }] :=
  ⟨replicate513_facts,
    c3_split_amended (List.replicate 513 'a') mdDefault replicate513_facts.1
      replicate513_facts.2.1 replicate513_facts.2.2⟩

/-! ## C5: category filter fallback -/

/-- C5: for every detected category other than `"unknown"`, if filtering the
retrieved results to that category yields zero results, the retrieval flow
returns the unfiltered result set instead of an empty sequence or an error. -/
theorem c5_category_fallback (cat : String) (results : List Document)
    (h1 : cat ≠ ("unknown"))
    (h2 : results.filter (fun d => d.metadata.category == cat) = []) :
    categoryFilterFlow cat results = results := by
  unfold categoryFilterFlow
  simp [h1, h2]

/-- Witness for `c5_category_fallback`: a smart-watch query over results that
contain only a tv-category fragment falls back to the unfiltered set. -/
theorem c5_category_fallback_witness :
    (("smart_watches" : String) ≠ ("unknown")
        ∧ ([{ page_content := ("x").toList, metadata := mdWithCategory ("tv") }] :
            List Document).filter
            (fun d => d.metadata.category == ("smart_watches" : String)) = [])
      ∧ categoryFilterFlow ("smart_watches")
          ([{ page_content := ("x").toList, metadata := mdWithCategory ("tv") }] :
            List Document)
          = [{ page_content := ("x").toList, metadata := mdWithCategory ("tv") }] :=
  ⟨⟨by decide, by decide⟩,
    c5_category_fallback ("smart_watches") _ (by decide) (by decide)⟩

/-! ## C9: category detection -/

/-- A query containing `"smartwatch"` also contains `"watch"` (substring
transitivity), which is why the two copies of `detect_category_from_query`
behave identically. -/
theorem watch_of_smartwatch {q : List Char}
    (h : strContains q (("smartwatch").toList) = true) :
    strContains q (("watch").toList) = true := by
  unfold strContains at h ⊢
  rw [decide_eq_true_iff] at h ⊢
  have hws : (("watch").toList) <:+: (("smartwatch").toList) := by decide
  exact hws.trans h

set_option maxHeartbeats 1000000 in
/-- The retriever's classifier agrees with the spec's closed keyword
enumeration with first-match-wins semantics. -/
theorem detectR_eq_detectSpec (q : List Char) :
    Retrieval.detect_category_from_query q = detectSpec q := by
  unfold Retrieval.detect_category_from_query detectSpec categoryKeywords
  dsimp only
  cases hA : strContains (q.map Char.toLower) (("headphone").toList) <;>
  cases hB : strContains (q.map Char.toLower) (("earphone").toList) <;>
  cases hC : strContains (q.map Char.toLower) (("headset").toList) <;>
  cases hD : strContains (q.map Char.toLower) (("mobile").toList) <;>
  cases hE : strContains (q.map Char.toLower) (("smartphone").toList) <;>
  cases hF : strContains (q.map Char.toLower) (("phone").toList) <;>
  cases hG : strContains (q.map Char.toLower) (("watch").toList) <;>
  cases hH : strContains (q.map Char.toLower) (("smartwatch").toList) <;>
  cases hI : strContains (q.map Char.toLower) (("tv").toList) <;>
  cases hJ : strContains (q.map Char.toLower) (("television").toList) <;>
    simp_all [List.find?, List.any_cons, List.any_nil]

set_option maxHeartbeats 1000000 in
/-- The ingestion pipeline's classifier also agrees with the spec's
enumeration: its smart-watch branch omits the redundant `"smartwatch"` test,
which changes nothing because `"watch"` is a substring of `"smartwatch"`. -/
theorem detectI_eq_detectSpec (q : List Char) :
    Ingestion.detect_category_from_query q = detectSpec q := by
  unfold Ingestion.detect_category_from_query detectSpec categoryKeywords
  dsimp only
  cases hA : strContains (q.map Char.toLower) (("headphone").toList) <;>
  cases hB : strContains (q.map Char.toLower) (("earphone").toList) <;>
  cases hC : strContains (q.map Char.toLower) (("headset").toList) <;>
  cases hD : strContains (q.map Char.toLower) (("mobile").toList) <;>
  cases hE : strContains (q.map Char.toLower) (("smartphone").toList) <;>
  cases hF : strContains (q.map Char.toLower) (("phone").toList) <;>
  cases hG : strContains (q.map Char.toLower) (("watch").toList) <;>
  cases hH : strContains (q.map Char.toLower) (("smartwatch").toList) <;>
  cases hI : strContains (q.map Char.toLower) (("tv").toList) <;>
  cases hJ : strContains (q.map Char.toLower) (("television").toList) <;>
    simp_all [List.find?, List.any_cons, List.any_nil] <;>
    exact Bool.false_ne_true (hG.symm.trans (watch_of_smartwatch hH))

/-- C9: for every query string, category detection classifies it
case-insensitively by substring keyword matching over the closed enumeration
{headphones: headphone/earphone/headset, mobiles: mobile/smartphone/phone,
smart_watches: watch/smartwatch, tv: tv/television}, first match winning in
that order; if no keyword matches, the category is `"unknown"` and the
filtering step applies no category filter.  Both copies of
`detect_category_from_query` (retriever and ingestion) satisfy this. -/
theorem c9_category_detection :
    (∀ q : List Char, Retrieval.detect_category_from_query q = detectSpec q)
      ∧ (∀ q : List Char, Ingestion.detect_category_from_query q = detectSpec q)
      ∧ (∀ results : List Document, categoryFilterFlow ("unknown") results = results) :=
  ⟨detectR_eq_detectSpec, detectI_eq_detectSpec, fun results => by
    unfold categoryFilterFlow
    simp⟩

/-! ## Helper lemmas about `store_in_vector_db` runs -/

/-- All rows of a uniformly-dimensioned embedding batch have the head row's
length, so the `np.array` shape guard holds. -/
theorem map_embed_uniform {embed : List Char → List Int} {docs : List Document}
    {dim : Nat} {v : List Int} {rest : List (List Int)}
    (hdim : ∀ d ∈ docs, (embed d.page_content).length = dim)
    (hv : (docs.map (fun d => d.page_content)).map embed = v :: rest) :
    ((v :: rest).all (fun w => w.length == v.length)) = true := by
  have hvlen : v.length = dim := by
    have hvmem : v ∈ (docs.map (fun d => d.page_content)).map embed := by
      rw [hv]; exact List.mem_cons_self _ _
    rw [List.map_map] at hvmem
    obtain ⟨d, hd, hvd⟩ := List.mem_map.mp hvmem
    rw [← hvd]
    exact hdim d hd
  rw [List.all_eq_true]
  intro w hw
  have hwmem : w ∈ (docs.map (fun d => d.page_content)).map embed := by
    rw [hv]; exact hw
  rw [List.map_map] at hwmem
  obtain ⟨d, hd, hwd⟩ := List.mem_map.mp hwmem
  rw [beq_iff_eq, ← hwd, hvlen]
  exact hdim d hd

/-- Effects of a fresh ingestion run (no pre-existing cache file) whose
provider returns vectors of one common dimension: the provider is called
once, the cache file is written, and it then holds exactly the batch's
embeddings. -/
theorem fresh_run_effects (embed : List Char → List Int) (docs : List Document)
    (dim : Nat) (hdim : ∀ d ∈ docs, (embed d.page_content).length = dim) :
    (store_in_vector_db embed docs none).providerCalls = 1
      ∧ (store_in_vector_db embed docs none).wroteCache = true
      ∧ (store_in_vector_db embed docs none).newCache
          = some (docs.map (fun d => embed d.page_content)) := by
  unfold store_in_vector_db
  dsimp only
  cases hv : (docs.map (fun d => d.page_content)).map embed with
  | nil =>
    have hd : docs = [] := by
      have hlen := congrArg List.length hv
      simpa using hlen
    subst hd
    simp
  | cons v rest =>
    have hall := map_embed_uniform hdim hv
    simp only [hall, if_true]
    refine ⟨by trivial, by trivial, ?_⟩
    rw [← hv, List.map_map]
    rfl

/-- A cached run never calls the provider and never writes the cache file. -/
theorem cached_run_effects (embed : List Char → List Int) (docs : List Document)
    (rows : List (List Int)) :
    (store_in_vector_db embed docs (some rows)).providerCalls = 0
      ∧ (store_in_vector_db embed docs (some rows)).wroteCache = false
      ∧ (store_in_vector_db embed docs (some rows)).newCache = some rows :=
  ⟨rfl, rfl, rfl⟩

/-- `buildAndSave` cannot succeed on fewer than `nlist = 40` rows. -/
theorem buildAndSave_small (rows : List (List Int)) (docs : List Document)
    (h : rows.length < 40) : ∀ vs, buildAndSave rows docs ≠ Except.ok vs := by
  intro vs
  unfold buildAndSave
  cases rows with
  | nil => simp [shapeErr]
  | cons v rest =>
    simp only [List.length_cons] at h
    by_cases hall : ((v :: rest).all (fun w => w.length == v.length)) = true
    · simp [hall, h]
    · simp [hall]

/-- A fresh run over at least `nlist = 40` uniformly-dimensioned documents
succeeds, and the resulting store is exactly the enumerated triple: the
embeddings in document order, the docstore `{str(i): doc_i}` and the mapping
`{i: str(i)}`. -/
theorem fresh_run_ok (embed : List Char → List Int) (docs : List Document)
    (dim : Nat) (h40 : 40 ≤ docs.length)
    (hdim : ∀ d ∈ docs, (embed d.page_content).length = dim) :
    (store_in_vector_db embed docs none).outcome
      = Except.ok
          { index := docs.map (fun d => embed d.page_content),
            docstore := docs.enum.map (fun p => (toString p.1, p.2)),
            index_to_docstore_id :=
              (List.range docs.length).map (fun i => (i, toString i)) } := by
  unfold store_in_vector_db
  dsimp only
  cases hv : (docs.map (fun d => d.page_content)).map embed with
  | nil =>
    exfalso
    have hlen := congrArg List.length hv
    simp only [List.length_map, List.length_nil] at hlen
    omega
  | cons v rest =>
    have hall := map_embed_uniform hdim hv
    have hlen40 : ¬ (v :: rest).length < 40 := by
      have hlen := congrArg List.length hv
      simp only [List.length_map, List.length_cons] at hlen ⊢
      omega
    simp only [hall, if_true]
    unfold buildAndSave
    dsimp only
    rw [if_pos hall, if_neg hlen40]
    congr 1
    rw [← hv, List.map_map]
    rfl

/-! ## C2: embedding-cache behaviour -/

/-- C2, counterexample: with a pre-existing `cached_embeddings.npy` file the
run makes no provider call and writes nothing to persistent storage — even
though the cached rows have nothing to do with the current fragment's
content, they are served verbatim.  This refutes both "keyed by exact
fragment content" and "the cache snapshot is written to persistent storage
after every ingestion run". -/
theorem c2_cache_cex :
    (store_in_vector_db embedZero [docHello] (some rows41)).providerCalls = 0
      ∧ (store_in_vector_db embedZero [docHello] (some rows41)).wroteCache = false
      ∧ (store_in_vector_db embedZero [docHello] (some rows41)).outcome = Except.ok vs41
      ∧ vs41.index ≠ [embedZero docHello.page_content] :=
  ⟨rfl, rfl, rfl, by decide⟩

/-- C2 (amended): the embedding cache is keyed by the existence of the cache
file alone, not by fragment content: when the file exists its rows are used
verbatim — no provider call and no write, regardless of the current
fragments; when it is absent, the provider is invoked exactly once for the
full batch and the fresh snapshot (the batch's embeddings, in order) is
written. -/
theorem c2_cache_amended (embed : List Char → List Int) (docs : List Document)
    (rows : List (List Int)) (dim : Nat)
    (hdim : ∀ d ∈ docs, (embed d.page_content).length = dim) :
    ((store_in_vector_db embed docs (some rows)).providerCalls = 0
        ∧ (store_in_vector_db embed docs (some rows)).wroteCache = false
        ∧ (store_in_vector_db embed docs (some rows)).newCache = some rows)
      ∧ ((store_in_vector_db embed docs none).providerCalls = 1
        ∧ (store_in_vector_db embed docs none).wroteCache = true
        ∧ (store_in_vector_db embed docs none).newCache
            = some (docs.map (fun d => embed d.page_content))) :=
  ⟨cached_run_effects embed docs rows, fresh_run_effects embed docs dim hdim⟩

/-- Witness for `c2_cache_amended` at a one-document corpus, the constant
one-dimensional provider and a stale 41-row cache. -/
theorem c2_cache_amended_witness :
    (∀ d ∈ ([docHello] : List Document), (embedZero d.page_content).length = 1)
      ∧ (((store_in_vector_db embedZero [docHello] (some rows41)).providerCalls = 0
          ∧ (store_in_vector_db embedZero [docHello] (some rows41)).wroteCache = false
          ∧ (store_in_vector_db embedZero [docHello] (some rows41)).newCache = some rows41)
        ∧ ((store_in_vector_db embedZero [docHello] none).providerCalls = 1
          ∧ (store_in_vector_db embedZero [docHello] none).wroteCache = true
          ∧ (store_in_vector_db embedZero [docHello] none).newCache
              = some (([docHello] : List Document).map (fun d => embedZero d.page_content)))) :=
  ⟨by decide, c2_cache_amended embedZero [docHello] rows41 1 (by decide)⟩

/-! ## C10: stale cache versus docstore size -/

/-- C10: `store_in_vector_db` never checks a pre-existing embedding cache
against the current document list: in every completed cached run the
docstore has exactly one entry per input document, with keys
`"0" .. "N-1"` in order, while the index receives exactly the cache file's
rows; in particular, with a 41-row stale cache and a single document, the
index's vector count (41) differs from the docstore's entry count (1). -/
theorem c10_stale_cache_mismatch :
    (∀ (embed : List Char → List Int) (docs : List Document)
        (rows : List (List Int)) (vs : VStore),
        (store_in_vector_db embed docs (some rows)).outcome = Except.ok vs →
          vs.index = rows
            ∧ vs.docstore.length = docs.length
            ∧ vs.docstore.map Prod.fst
                = (List.range docs.length).map (fun i => toString i))
      ∧ ((store_in_vector_db embedZero [docHello] (some rows41)).outcome = Except.ok vs41
          ∧ vs41.index.length = 41 ∧ vs41.docstore.length = 1
          ∧ vs41.index.length ≠ vs41.docstore.length) := by
  constructor
  · intro embed docs rows vs h
    unfold store_in_vector_db at h
    dsimp only at h
    unfold buildAndSave at h
    cases rows with
    | nil => exact absurd h (by simp)
    | cons v rest =>
      dsimp only at h
      by_cases hall : ((v :: rest).all (fun w => w.length == v.length)) = true
      · rw [if_pos hall] at h
        by_cases hlen : (v :: rest).length < 40
        · rw [if_pos hlen] at h
          exact absurd h (by simp)
        · rw [if_neg hlen] at h
          injection h with h
          subst h
          refine ⟨rfl, by simp, ?_⟩
          rw [List.map_map, ← List.enum_map_fst docs, List.map_map]
          rfl
      · rw [if_neg hall] at h
        exact absurd h (by simp)
  · exact ⟨rfl, by decide, by decide, by decide⟩

/-- Witness for the universally quantified half of `c10_stale_cache_mismatch`
at the concrete stale-cache run. -/
theorem c10_stale_cache_mismatch_witness :
    (store_in_vector_db embedZero [docHello] (some rows41)).outcome = Except.ok vs41
      ∧ (vs41.index = rows41
          ∧ vs41.docstore.length = ([docHello] : List Document).length
          ∧ vs41.docstore.map Prod.fst
              = (List.range ([docHello] : List Document).length).map (fun i => toString i)) :=
  ⟨rfl, c10_stale_cache_mismatch.1 embedZero [docHello] rows41 vs41 rfl⟩

/-! ## C1: index/docstore bijection -/

/-- C1, counterexample: an ingestion run over a single document that loads a
stale 40-row cache file completes with an index of 40 vectors but a
DocumentStore of one entry — position 1 of the index has no DocumentStore
counterpart, refuting the claimed bijection "for every ingestion run". -/
theorem c1_bijection_cex :
    (store_in_vector_db embedZero [docHello] (some rows40)).outcome = Except.ok vs40
      ∧ vs40.index.length = 40 ∧ vs40.docstore.length = 1
      ∧ vs40.index.length ≠ vs40.docstore.length :=
  ⟨rfl, by decide, by decide, by decide⟩

/-- C1 (amended): for every ingestion run with no pre-existing embedding
cache file (at least `nlist = 40` documents embedded at one common
dimension), the built DocumentStore holds the input documents in order at
positions `0 .. N-1` under keys `"0" .. "N-1"`, position `i` of the
QuantizedIndex holds the embedding of document `i` (so index and store have
the same length and correspond position-by-position), and the whole triple
is preserved unchanged across `save_local`/`load_local`.  A run that loads a
stale cache file keeps only the DocumentStore half of the invariant. -/
theorem c1_bijection_amended (embed : List Char → List Int) (docs : List Document)
    (dim : Nat) (h40 : 40 ≤ docs.length)
    (hdim : ∀ d ∈ docs, (embed d.page_content).length = dim) :
    ∃ vs, (store_in_vector_db embed docs none).outcome = Except.ok vs
      ∧ vs.index.length = docs.length
      ∧ vs.docstore.length = docs.length
      ∧ vs.index_to_docstore_id.length = docs.length
      ∧ (∀ i : Nat, vs.index[i]? = docs[i]?.map (fun d => embed d.page_content))
      ∧ (∀ i : Nat, vs.docstore[i]? = docs[i]?.map (fun d => (toString i, d)))
      ∧ (∀ i : Nat, i < docs.length → vs.index_to_docstore_id[i]? = some (i, toString i))
      ∧ load_local (save_local vs) = vs := by
  refine ⟨{ index := docs.map (fun d => embed d.page_content),
            docstore := docs.enum.map (fun p => (toString p.1, p.2)),
            index_to_docstore_id :=
              (List.range docs.length).map (fun i => (i, toString i)) },
    fresh_run_ok embed docs dim h40 hdim, by simp, by simp, by simp,
    fun i => by simp, fun i => ?_, fun i hi => ?_, rfl⟩
  · show (docs.enum.map (fun p => (toString p.1, p.2)))[i]?
        = docs[i]?.map (fun d => (toString i, d))
    rw [List.getElem?_map, List.getElem?_enum]
    cases docs[i]? <;> rfl
  · show ((List.range docs.length).map (fun j => (j, toString j)))[i]?
        = some (i, toString i)
    rw [List.getElem?_map, List.getElem?_range hi]
    rfl

/-- Witness for `c1_bijection_amended`: a fresh run over forty copies of the
one-document corpus with the constant one-dimensional provider. -/
theorem c1_bijection_amended_witness :
    (40 ≤ (List.replicate 40 docHello).length
        ∧ ∀ d ∈ List.replicate 40 docHello, (embedZero d.page_content).length = 1)
      ∧ (∃ vs,
          (store_in_vector_db embedZero (List.replicate 40 docHello) none).outcome
              = Except.ok vs
            ∧ vs.index.length = (List.replicate 40 docHello).length
            ∧ vs.docstore.length = (List.replicate 40 docHello).length
            ∧ vs.index_to_docstore_id.length = (List.replicate 40 docHello).length
            ∧ (∀ i : Nat, vs.index[i]?
                = (List.replicate 40 docHello)[i]?.map (fun d => embedZero d.page_content))
            ∧ (∀ i : Nat, vs.docstore[i]?
                = (List.replicate 40 docHello)[i]?.map (fun d => (toString i, d)))
            ∧ (∀ i : Nat, i < (List.replicate 40 docHello).length →
                vs.index_to_docstore_id[i]? = some (i, toString i))
            ∧ load_local (save_local vs) = vs) :=
  ⟨⟨by simp, fun d hd => by rw [List.eq_of_mem_replicate hd]; rfl⟩,
    c1_bijection_amended embedZero (List.replicate 40 docHello) 1 (by simp)
      (fun d hd => by rw [List.eq_of_mem_replicate hd]; rfl)⟩

/-! ## C6: training minimum -/

/-- C6: training the quantized index requires at least `nlist = 40` vectors:
a run whose working vector batch (cached rows or fresh embeddings) has fewer
than 40 rows never produces a built store, and whenever that batch is a
well-formed non-empty matrix the failure is exactly the training error —
never a silently degraded or trained index. -/
theorem c6_training_minimum :
    (∀ (embed : List Char → List Int) (docs : List Document)
        (cache : Option (List (List Int))),
        (vectorsUsed embed docs cache).length < 40 →
        ∀ vs, (store_in_vector_db embed docs cache).outcome ≠ Except.ok vs)
      ∧ (∀ (embed : List Char → List Int) (docs : List Document)
          (cache : Option (List (List Int))) (v : List Int) (rest : List (List Int)),
          vectorsUsed embed docs cache = v :: rest →
          ((v :: rest).all (fun w => w.length == v.length)) = true →
          (v :: rest).length < 40 →
          (store_in_vector_db embed docs cache).outcome = Except.error trainErr) := by
  constructor
  · intro embed docs cache h vs
    cases cache with
    | some rows =>
      exact buildAndSave_small rows docs h vs
    | none =>
      unfold store_in_vector_db
      dsimp only
      unfold vectorsUsed at h
      cases hv : (docs.map (fun d => d.page_content)).map embed with
      | nil => exact buildAndSave_small [] docs (by simp) vs
      | cons v rest =>
        dsimp only
        by_cases hall : ((v :: rest).all (fun w => w.length == v.length)) = true
        · rw [if_pos hall]
          refine buildAndSave_small (v :: rest) docs ?_ vs
          have hlen := congrArg List.length hv
          simp only [List.length_map, List.length_cons] at hlen h ⊢
          omega
        · rw [if_neg hall]
          simp
  · intro embed docs cache v rest hvu hall hlen
    cases cache with
    | some rows =>
      have hrows : rows = v :: rest := hvu
      subst hrows
      show buildAndSave (v :: rest) docs = Except.error trainErr
      unfold buildAndSave
      dsimp only
      rw [if_pos hall, if_pos hlen]
    | none =>
      have hv : (docs.map (fun d => d.page_content)).map embed = v :: rest := by
        rw [List.map_map]
        exact hvu
      unfold store_in_vector_db
      dsimp only
      rw [hv]
      dsimp only
      rw [if_pos hall]
      unfold buildAndSave
      dsimp only
      rw [if_pos hall, if_pos hlen]

/-- Witness for `c6_training_minimum`: a fresh run over a single document
(one 1-dimensional vector, fewer than 40) fails with the training error. -/
theorem c6_training_minimum_witness :
    ((vectorsUsed embedZero [docHello] none).length < 40
        ∧ ∀ vs, (store_in_vector_db embedZero [docHello] none).outcome ≠ Except.ok vs)
      ∧ (vectorsUsed embedZero [docHello] none = [0] :: []
        ∧ (store_in_vector_db embedZero [docHello] none).outcome = Except.error trainErr) :=
  ⟨⟨by decide, c6_training_minimum.1 embedZero [docHello] none (by decide)⟩,
    ⟨by decide,
      c6_training_minimum.2 embedZero [docHello] none [0] [] (by decide) (by decide)
        (by decide)⟩⟩

/-! ## C4 and C8: the reranker -/

/-- Projecting the scored pairs back to documents recovers exactly the
candidates whose judge response parsed. -/
theorem scored_map_fst (docs : List Document) (g : Document → Option Int) :
    (docs.filterMap (fun d => (g d).map (fun s => (d, s)))).map Prod.fst
      = docs.filter (fun d => (g d).isSome) := by
  induction docs with
  | nil => rfl
  | cons d rest ih =>
    cases hg : g d with
    | none => simp [List.filterMap_cons, List.filter_cons, hg, ih]
    | some s => simp [List.filterMap_cons, List.filter_cons, hg, ih]

/-- C4 (amended): `rerank_documents` includes a candidate in its output if
and only if the judge's stripped response parses as a Python integer — no
`[1,10]` range check is applied — and a candidate whose response fails to
parse is dropped silently without aborting the rest: the output is a
permutation of exactly the parseable candidates. -/
theorem c4_rerank_membership (docs : List Document) (judge : Document → List Char) :
    (rerank_documents docs judge).Perm
      (docs.filter (fun d => (pyInt (trim (judge d))).isSome)) := by
  unfold rerank_documents pySortDesc
  dsimp only
  refine ((List.mergeSort_perm _ _).map _).trans ?_
  rw [scored_map_fst docs (fun d => pyInt (trim (judge d)))]

/-- C4, counterexample: a judge response of `"11"` parses as the integer 11,
which lies outside `[1,10]`, yet the candidate is included in the output —
the code applies no range check, refuting the claim as stated. -/
theorem c4_rerank_range_cex :
    rerank_documents [docA] judge11 = [docA]
      ∧ pyInt (trim (judge11 docA)) = some 11
      ∧ ¬ ((1 : Int) ≤ 11 ∧ (11 : Int) ≤ 10) := by
  refine ⟨?_, by decide, by decide⟩
  simp [rerank_documents, pySortDesc, List.mergeSort, judge11, docA, pyInt, trim,
    parseUDigits, parseUDigitsRest, digitChar?, mdDefault]

/-- The comparator `rerank_documents` sorts with is transitive. -/
theorem sortDesc_trans (a b c : Document × Int)
    (hab : decide (b.2 ≤ a.2) = true) (hbc : decide (c.2 ≤ b.2) = true) :
    decide (c.2 ≤ a.2) = true := by
  rw [decide_eq_true_iff] at hab hbc ⊢
  omega

/-- The comparator `rerank_documents` sorts with is total. -/
theorem sortDesc_total (a b : Document × Int) :
    (decide ((b.2 : Int) ≤ a.2) || decide ((a.2 : Int) ≤ b.2)) = true := by
  rcases Int.le_total b.2 a.2 with h | h <;> simp [h]

/-- `pySortDesc` yields scores in non-increasing order. -/
theorem pySortDesc_sorted (l : List (Document × Int)) :
    List.Pairwise (fun a b => b.2 ≤ a.2) (pySortDesc l) := by
  have h := @List.sorted_mergeSort (Document × Int)
    (fun a b => decide (b.2 ≤ a.2)) sortDesc_trans sortDesc_total l
  exact h.imp (fun hab => by
    rw [decide_eq_true_iff] at hab
    exact hab)

/-- Stability of `pySortDesc`: the candidates carrying any fixed score appear
in the output exactly as they appear in the input. -/
theorem pySortDesc_stable_filter (l : List (Document × Int)) (s : Int) :
    (pySortDesc l).filter (fun p => p.2 == s) = l.filter (fun p => p.2 == s) := by
  have hpw : (l.filter (fun p => p.2 == s)).Pairwise
      (fun a b : Document × Int => decide (b.2 ≤ a.2) = true) := by
    refine List.pairwise_of_forall_mem_list ?_
    intro a ha b hb
    have ha2 : a.2 = s := by
      have := (List.mem_filter.mp ha).2
      rwa [beq_iff_eq] at this
    have hb2 : b.2 = s := by
      have := (List.mem_filter.mp hb).2
      rwa [beq_iff_eq] at this
    rw [decide_eq_true_iff, ha2, hb2]
  have hsub : List.Sublist (l.filter (fun p => p.2 == s))
      (List.mergeSort l (fun a b => decide (b.2 ≤ a.2))) :=
    List.sublist_mergeSort sortDesc_trans sortDesc_total hpw
      (List.filter_sublist l)
  have hsub2 : List.Sublist ((l.filter (fun p => p.2 == s)).filter (fun p => p.2 == s))
      ((List.mergeSort l (fun a b => decide (b.2 ≤ a.2))).filter (fun p => p.2 == s)) :=
    hsub.filter _
  rw [List.filter_filter] at hsub2
  simp only [Bool.and_self] at hsub2
  have hperm : ((List.mergeSort l (fun a b => decide (b.2 ≤ a.2))).filter
      (fun p => p.2 == s)).Perm (l.filter (fun p => p.2 == s)) :=
    (List.mergeSort_perm l _).filter _
  exact (hsub2.eq_of_length hperm.length_eq.symm).symm

/-- C8: `rerank_documents` sorts stably by descending score, preserving the
original retrieval order among equal scores: in particular candidates
`[A, B, C]` with judge scores `[3, 9, 9]` yield `[B, C, A]`, with `B` before
`C`; in general the output scores are non-increasing and the candidates at
any fixed score keep their input order. -/
theorem c8_stable_rerank :
    rerank_documents [docA, docB, docC] judge393 = [docB, docC, docA]
      ∧ (∀ l : List (Document × Int), List.Pairwise (fun a b => b.2 ≤ a.2) (pySortDesc l))
      ∧ (∀ (l : List (Document × Int)) (s : Int),
          (pySortDesc l).filter (fun p => p.2 == s) = l.filter (fun p => p.2 == s)) := by
  refine ⟨?_, pySortDesc_sorted, pySortDesc_stable_filter⟩
  simp [rerank_documents, pySortDesc, List.mergeSort, List.splitInTwo, List.splitAt,
    List.splitAt.go, List.merge, judge393, docA, docB, docC, pyInt, trim,
    parseUDigits, parseUDigitsRest, digitChar?, mdDefault]

/-! ## C7: the search contract -/

/-- The distance-then-position comparator used by `searchIndex` is
transitive. -/
theorem searchLE_trans (a b c : Nat × Nat)
    (hab : decide (a.2 < b.2 ∨ (a.2 = b.2 ∧ a.1 ≤ b.1)) = true)
    (hbc : decide (b.2 < c.2 ∨ (b.2 = c.2 ∧ b.1 ≤ c.1)) = true) :
    decide (a.2 < c.2 ∨ (a.2 = c.2 ∧ a.1 ≤ c.1)) = true := by
  rw [decide_eq_true_iff] at hab hbc ⊢
  omega

/-- The distance-then-position comparator used by `searchIndex` is total. -/
theorem searchLE_total (a b : Nat × Nat) :
    (decide (a.2 < b.2 ∨ (a.2 = b.2 ∧ a.1 ≤ b.1))
      || decide (b.2 < a.2 ∨ (b.2 = a.2 ∧ b.1 ≤ a.1))) = true := by
  rw [Bool.or_eq_true, decide_eq_true_iff, decide_eq_true_iff]
  omega

/-- The positions in a `searchIndex` result are pairwise distinct. -/
theorem searchIndex_positions_nodup (index : List (List Int))
    (dist : List Int → List Int → Nat) (q : List Int) (k : Nat) :
    List.Pairwise (fun a b : Nat × Nat => a.1 ≠ b.1) (searchIndex index dist q k) := by
  have hnd : ((List.mergeSort ((index.map (dist q)).enum)
      (fun a b => decide (a.2 < b.2 ∨ (a.2 = b.2 ∧ a.1 ≤ b.1)))).map Prod.fst).Nodup := by
    have hperm := (List.mergeSort_perm ((index.map (dist q)).enum)
      (fun a b => decide (a.2 < b.2 ∨ (a.2 = b.2 ∧ a.1 ≤ b.1)))).map Prod.fst
    rw [hperm.nodup_iff, List.enum_map_fst]
    exact List.nodup_range _
  have hsub : List.Sublist ((searchIndex index dist q k).map Prod.fst)
      ((List.mergeSort ((index.map (dist q)).enum)
        (fun a b => decide (a.2 < b.2 ∨ (a.2 = b.2 ∧ a.1 ≤ b.1)))).map Prod.fst) :=
    (List.take_sublist _ _).map Prod.fst
  exact List.pairwise_map.mp (hnd.sublist hsub)

/-- C7 (spec-modelled search): for every populated index, query vector of
matching dimension and `k > 0`, `search(q, k)` returns results ordered by
non-decreasing approximate distance with ties broken by strictly ascending
position, and the result length never exceeds `min k vector_count` (it
equals it). -/
theorem c7_search_contract (index : List (List Int))
    (dist : List Int → List Int → Nat) (q : List Int) (k : Nat) (dim : Nat)
    (hk : 0 < k) (hdim : ∀ v ∈ index, v.length = dim) (hq : q.length = dim)
    (hpop : index ≠ []) :
    (searchIndex index dist q k).length = min k index.length
      ∧ List.Pairwise (fun a b : Nat × Nat => a.2 < b.2 ∨ (a.2 = b.2 ∧ a.1 < b.1))
          (searchIndex index dist q k) := by
  constructor
  · unfold searchIndex
    rw [List.length_take, List.length_mergeSort, List.enum_length, List.length_map]
  · have hsorted : List.Pairwise
        (fun a b : Nat × Nat => decide (a.2 < b.2 ∨ (a.2 = b.2 ∧ a.1 ≤ b.1)) = true)
        (searchIndex index dist q k) := by
      refine List.Pairwise.sublist (List.take_sublist _ _) ?_
      exact List.sorted_mergeSort searchLE_trans searchLE_total _
    have hnd := searchIndex_positions_nodup index dist q k
    refine (hsorted.and hnd).imp ?_
    intro a b hab
    obtain ⟨h1, h2⟩ := hab
    rw [decide_eq_true_iff] at h1
    omega

/-- Witness for `c7_search_contract` on a two-vector index with a constant
distance function and `k = 1`. -/
theorem c7_search_contract_witness :
    (0 < 1 ∧ (∀ v ∈ ([[0], [1]] : List (List Int)), v.length = 1)
        ∧ ([0] : List Int).length = 1 ∧ ([[0], [1]] : List (List Int)) ≠ [])
      ∧ ((searchIndex [[0], [1]] (fun _ _ => 0) [0] 1).length
            = min 1 ([[0], [1]] : List (List Int)).length
        ∧ List.Pairwise (fun a b : Nat × Nat => a.2 < b.2 ∨ (a.2 = b.2 ∧ a.1 < b.1))
            (searchIndex [[0], [1]] (fun _ _ => 0) [0] 1)) :=
  ⟨⟨by decide, by decide, by decide, by decide⟩,
    c7_search_contract [[0], [1]] (fun _ _ => 0) [0] 1 1 (by decide) (by decide)
      (by decide) (by decide)⟩
